import Mathlib

/-!
Verification of the SBOM merge/deduplication engine of
konflux-ci/build-tasks-dockerfiles.

The development shallow-embeds the Python sources:

* `scripts/merge-sboms-script/merge_sboms.py` (CycloneDX flat-list merge),
* `scripts/merge-cachi2-sboms-script/merge_cachi2_sboms.py` (SPDX graph merge),
* `scripts/contextual-sbom/src/parent_content.py` (lineage rewrite),
* `scripts/base-images-sbom-script/app/base_images_sbom_script.py`
  (base-image component synthesizer).

Modeling conventions:

* Python strings are Lean `String`s; `str.isdecimal` and `.lower()` are modeled
  on ASCII (the repository only ever feeds ASCII package data through them).
* A JSON value that the code reads with `dict.get(key, default)` is modeled by
  a field already carrying the default; a value read with `dict[key]` is a
  mandatory field.
* A raised Python exception (`ValueError`, unbound local, parse error) is
  modeled by `Option` with `none` for the raise.
* package-url strings are modeled by a structured `Purl` record together with
  explicit `purlToString` / `purlFromString` functions mirroring
  packageurl-python's `to_string` / `from_string` (percent-encoding with
  `/` kept safe, as the library's `quote(..., safe="/")` default does).
* All definitions are structurally recursive so that concrete instances reduce
  inside the kernel (`decide`).
-/

namespace SbomCore

/-! ## Character / string utilities -/

def lowerStr (s : String) : String := ⟨s.data.map Char.toLower⟩

/-- Python `str.isdecimal`, restricted to ASCII digits. -/
def isDecimalStr (s : String) : Bool := !s.data.isEmpty && s.data.all Char.isDigit

def strStartsWith (s pre : String) : Bool := List.isPrefixOf pre.data s.data

def strContainsL (sub : List Char) : List Char → Bool
  | [] => List.isPrefixOf sub []
  | c :: cs => List.isPrefixOf sub (c :: cs) || strContainsL sub cs

/-- Python `sub in s`. -/
def strContains (s sub : String) : Bool := strContainsL sub.data s.data

def splitOnCharL (sep : Char) : List Char → List (List Char)
  | [] => [[]]
  | c :: cs =>
    match splitOnCharL sep cs with
    | [] => [[]]
    | h :: t => if c = sep then [] :: h :: t else (c :: h) :: t

/-- Python `s.split(sep)` for a one-character separator. -/
def splitStr (sep : Char) (s : String) : List String :=
  (splitOnCharL sep s.data).map String.mk

def joinWith (sep : String) : List String → String
  | [] => ""
  | [x] => x
  | x :: xs => x ++ sep ++ joinWith sep xs

/-- Python `s.partition(sep)` restricted to "was the separator found":
`some (before, after)` on the FIRST occurrence, `none` if absent. -/
def splitFirstOnChar (sep : Char) (s : String) : Option (String × String) :=
  match splitStr sep s with
  | [] => none
  | [_] => none
  | p :: rest => some (p, joinWith (String.singleton sep) rest)

/-- Python `s.rpartition(sep)` restricted to "was the separator found":
`some (before, after)` on the LAST occurrence, `none` if absent. -/
def splitLastOnChar (sep : Char) (s : String) : Option (String × String) :=
  match splitStr sep s with
  | [] => none
  | [_] => none
  | p :: q :: rest =>
    some (joinWith (String.singleton sep) ((p :: q :: rest).dropLast),
          (p :: q :: rest).getLastD "")

/-- Python `s.strip(c)` for a one-character strip set. -/
def stripCharStr (c : Char) (s : String) : String :=
  ⟨((s.data.dropWhile (· = c)).reverse.dropWhile (· = c)).reverse⟩

def dropLeadingChar (c : Char) (s : String) : String := ⟨s.data.dropWhile (· = c)⟩

/-- Python `s.removeprefix(p)` for a one-character p. -/
def removePrefixChar (c : Char) (s : String) : String :=
  match s.data with
  | [] => ""
  | d :: ds => if d = c then ⟨ds⟩ else ⟨d :: ds⟩

def hexDigitU (n : Nat) : Char := if n < 10 then Char.ofNat (48 + n) else Char.ofNat (55 + n)

def hexDigitL (n : Nat) : Char := if n < 10 then Char.ofNat (48 + n) else Char.ofNat (87 + n)

def natToHex2 (n : Nat) : String := ⟨[hexDigitU (n / 16 % 16), hexDigitU (n % 16)]⟩

def natToHex4L (n : Nat) : String :=
  ⟨[hexDigitL (n / 4096 % 16), hexDigitL (n / 256 % 16), hexDigitL (n / 16 % 16),
    hexDigitL (n % 16)]⟩

/-- UTF-8 bytes of one character (as `Nat`s below 256). -/
def charUtf8Bytes (c : Char) : List Nat :=
  let n := c.toNat
  if n < 128 then [n]
  else if n < 2048 then [192 + n / 64, 128 + n % 64]
  else if n < 65536 then [224 + n / 4096, 128 + n / 64 % 64, 128 + n % 64]
  else [240 + n / 262144, 128 + n / 4096 % 64, 128 + n / 64 % 64, 128 + n % 64]

def strUtf8Bytes (s : String) : List Nat := (s.data.map charUtf8Bytes).flatten

/-- urllib's "always safe" bytes: letters, digits, `_`, `.`, `-`, `~`. -/
def isAlwaysSafeByte (b : Nat) : Bool :=
  (65 ≤ b && b ≤ 90) || (97 ≤ b && b ≤ 122) || (48 ≤ b && b ≤ 57) ||
    b = 95 || b = 46 || b = 45 || b = 126

/-- Python `urllib.parse.quote_plus(s)` (default `safe=""`). -/
def quotePlus (s : String) : String :=
  String.join ((strUtf8Bytes s).map fun b =>
    if isAlwaysSafeByte b then String.singleton (Char.ofNat b)
    else if b = 32 then "+"
    else "%" ++ natToHex2 b)

/-- Python `urllib.parse.quote(s)` with the default `safe="/"`,
as packageurl-python uses when rendering purl components. -/
def pctQuote (s : String) : String :=
  String.join ((strUtf8Bytes s).map fun b =>
    if isAlwaysSafeByte b || b = 47 then String.singleton (Char.ofNat b)
    else "%" ++ natToHex2 b)

def hexVal (c : Char) : Option Nat :=
  if 48 ≤ c.toNat && c.toNat ≤ 57 then some (c.toNat - 48)
  else if 65 ≤ c.toNat && c.toNat ≤ 70 then some (c.toNat - 55)
  else if 97 ≤ c.toNat && c.toNat ≤ 102 then some (c.toNat - 87)
  else none

/-- Percent-decoding to a byte list (`%HH` sequences; other chars re-encoded
to UTF-8 bytes), as `urllib.parse.unquote` effectively does. -/
def pctDecodeBytes : List Char → List Nat
  | [] => []
  | '%' :: h :: l :: rest =>
    match hexVal h, hexVal l with
    | some hv, some lv => (hv * 16 + lv) :: pctDecodeBytes rest
    | _, _ => charUtf8Bytes '%' ++ pctDecodeBytes (h :: l :: rest)
  | c :: rest => charUtf8Bytes c ++ pctDecodeBytes rest

/-- Fuel-driven UTF-8 decoding step (each step consumes at least one byte, so
list-length fuel suffices; fuel keeps the recursion structural). -/
def utf8DecodeAux : Nat → List Nat → List Char
  | 0, _ => []
  | _ + 1, [] => []
  | fuel + 1, b :: bs =>
    if b < 128 then Char.ofNat b :: utf8DecodeAux fuel bs
    else if 192 ≤ b && b < 224 then
      match bs with
      | b2 :: rest =>
        if 128 ≤ b2 && b2 < 192 then
          Char.ofNat ((b - 192) * 64 + (b2 - 128)) :: utf8DecodeAux fuel rest
        else Char.ofNat b :: utf8DecodeAux fuel (b2 :: rest)
      | [] => [Char.ofNat b]
    else if 224 ≤ b && b < 240 then
      match bs with
      | b2 :: b3 :: rest =>
        if 128 ≤ b2 && b2 < 192 && 128 ≤ b3 && b3 < 192 then
          Char.ofNat ((b - 224) * 4096 + (b2 - 128) * 64 + (b3 - 128)) ::
            utf8DecodeAux fuel rest
        else Char.ofNat b :: utf8DecodeAux fuel (b2 :: b3 :: rest)
      | rest => Char.ofNat b :: utf8DecodeAux fuel rest
    else if 240 ≤ b && b < 248 then
      match bs with
      | b2 :: b3 :: b4 :: rest =>
        if 128 ≤ b2 && b2 < 192 && 128 ≤ b3 && b3 < 192 && 128 ≤ b4 && b4 < 192 then
          Char.ofNat ((b - 240) * 262144 + (b2 - 128) * 4096 + (b3 - 128) * 64 +
              (b4 - 128)) :: utf8DecodeAux fuel rest
        else Char.ofNat b :: utf8DecodeAux fuel (b2 :: b3 :: b4 :: rest)
      | rest => Char.ofNat b :: utf8DecodeAux fuel rest
    else Char.ofNat b :: utf8DecodeAux fuel bs

/-- Decode a UTF-8 byte list back to characters (invalid sequences are kept
byte-by-byte, which never occurs on the data this repository handles). -/
def utf8BytesToChars (bs : List Nat) : List Char := utf8DecodeAux bs.length bs

def pctDecode (s : String) : String := ⟨utf8BytesToChars (pctDecodeBytes s.data)⟩

/-! ## Ordering / sorting / dedup helpers -/

def charListLt : List Char → List Char → Bool
  | [], [] => false
  | [], _ :: _ => true
  | _ :: _, [] => false
  | a :: as_, b :: bs =>
    if a = b then charListLt as_ bs else decide (a.toNat < b.toNat)

/-- Python `str <` (code-point lexicographic). -/
def strLt (a b : String) : Bool := charListLt a.data b.data

def strLe (a b : String) : Bool := a = b || strLt a b

def insertSorted (le : α → α → Bool) (x : α) : List α → List α
  | [] => [x]
  | y :: ys => if le x y then x :: y :: ys else y :: insertSorted le x ys

/-- Stable sort (insertion sort, structurally recursive). -/
def sortByB (le : α → α → Bool) (l : List α) : List α := l.foldr (insertSorted le) []

def dedupLAux [DecidableEq α] (seen : List α) : List α → List α
  | [] => []
  | x :: xs => if x ∈ seen then dedupLAux seen xs else x :: dedupLAux (x :: seen) xs

/-- Keep the first occurrence of each element (Python `set` construction,
modeled with insertion order kept). -/
def dedupL [DecidableEq α] (l : List α) : List α := dedupLAux [] l

/-- Keep the first occurrence of each key (Python `dict.setdefault` dedup). -/
def dedupeByKey [DecidableEq κ] (key : α → κ) : List κ → List α → List α
  | _, [] => []
  | seen, x :: xs =>
    if key x ∈ seen then dedupeByKey key seen xs
    else x :: dedupeByKey key (key x :: seen) xs

/-- `_dedupe(items, by_key)` of merge_sboms.py: first occurrence per key wins,
insertion order kept. -/
def dedupeBy [DecidableEq κ] (key : α → κ) (l : List α) : List α := dedupeByKey key [] l

/-- `_merge(items_a, items_b, by_key)` of merge_sboms.py. -/
def mergeListsBy [DecidableEq κ] (key : α → κ) (as_ bs : List α) : List α :=
  dedupeBy key (as_ ++ bs)

/-- `List.mapM` over `Option`, structurally recursive (a raised exception in
the Python loop is `none`). -/
def mapMOpt (f : α → Option β) : List α → Option (List β)
  | [] => some []
  | x :: xs =>
    match f x, mapMOpt f xs with
    | some y, some ys => some (y :: ys)
    | _, _ => none

/-! ## JSON string rendering (Python `json.dumps` on strings) -/

def jsonEscapeChar (c : Char) : String :=
  if c = '"' then "\\\""
  else if c = '\\' then "\\\\"
  else if c.toNat = 10 then "\\n"
  else if c.toNat = 13 then "\\r"
  else if c.toNat = 9 then "\\t"
  else if c.toNat = 8 then "\\b"
  else if c.toNat = 12 then "\\f"
  else if c.toNat < 32 then "\\u" ++ natToHex4L c.toNat
  else if c.toNat < 127 then String.singleton c
  else if c.toNat < 65536 then "\\u" ++ natToHex4L c.toNat
  else
    "\\u" ++ natToHex4L (55296 + (c.toNat - 65536) / 1024) ++
      "\\u" ++ natToHex4L (56320 + (c.toNat - 65536) % 1024)

/-- `json.dumps` of a Python string (default `ensure_ascii=True`). -/
def jsonDumpsStr (s : String) : String :=
  "\"" ++ String.join (s.data.map jsonEscapeChar) ++ "\""

/-- `json.dumps` of a list of strings with `separators=(",", ":")`. -/
def jsonDumpsStrList (xs : List String) : String :=
  "[" ++ joinWith "," (xs.map jsonDumpsStr) ++ "]"

/-- `json.dumps({"name": n, "value": v}, separators=(",", ":"))`. -/
def jsonDumpsNameValue (n v : String) : String :=
  "\x7b\"name\":" ++ jsonDumpsStr n ++ ",\"value\":" ++ jsonDumpsStr v ++ "\x7d"

/-! ## Structured package URLs -/

/-- A parsed `PackageURL` (packageurl-python). `nspace` is the library's
`namespace` field. Constructed instances are taken normalized the way the
library's constructor leaves them (lower-case `typ`, no empty-string
components: the constructor coerces falsy components to `None`). -/
structure Purl where
  typ : String
  nspace : Option String := none
  name : String
  version : Option String := none
  qualifiers : List (String × String) := []
  subpath : Option String := none
deriving DecidableEq, Repr

def optTruthy (o : Option String) : Bool :=
  match o with
  | some s => decide (s ≠ "")
  | none => false

/-- packageurl-python `PackageURL.to_string`. Components are percent-encoded
with `/` kept safe; qualifiers are sorted by key and rendered `k=v&...`;
subpath segments `""`, `.` and `..` are discarded. -/
def purlToString (p : Purl) : String :=
  let nsPart :=
    match p.nspace with
    | some ns =>
      if ns.isEmpty then ""
      else
        joinWith "/" (((splitStr '/' (stripCharStr '/' ns)).filter
          (fun s => !s.isEmpty)).map pctQuote) ++ "/"
    | none => ""
  let versionPart :=
    match p.version with
    | some v => if v.isEmpty then "" else "@" ++ pctQuote v
    | none => ""
  let qualPart :=
    if p.qualifiers.isEmpty then ""
    else
      "?" ++ joinWith "&"
        ((sortByB (fun a b => strLe a.1 b.1) p.qualifiers).map
          (fun kv => lowerStr kv.1 ++ "=" ++ pctQuote kv.2))
  let subPart :=
    match p.subpath with
    | some sp =>
      if sp.isEmpty then ""
      else
        "#" ++ joinWith "/" (((splitStr '/' (stripCharStr '/' sp)).filter
          (fun s => !s.isEmpty && s ≠ "." && s ≠ "..")).map pctQuote)
    | none => ""
  "pkg:" ++ p.typ ++ "/" ++ nsPart ++ pctQuote (stripCharStr '/' p.name) ++
    versionPart ++ qualPart ++ subPart

def parseQualifiers (s : String) : List (String × String) :=
  (splitStr '&' s).filterMap fun kv =>
    match splitFirstOnChar '=' kv with
    | some (k, v) => if v.isEmpty then none else some (lowerStr k, pctDecode v)
    | none => none

def strToOptIfNonEmpty (s : String) : Option String := if s.isEmpty then none else some s

/-- packageurl-python `PackageURL.from_string`; `none` models the raised
`ValueError` (missing `pkg` scheme, empty type or empty name). -/
def purlFromString (s : String) : Option Purl :=
  match splitFirstOnChar ':' s with
  | none => none
  | some (scheme, rest0) =>
    if scheme ≠ "pkg" then none
    else
      let rest1 := dropLeadingChar '/' rest0
      let (rest2, subpath) :=
        match splitLastOnChar '#' rest1 with
        | some (a, b) => (a, strToOptIfNonEmpty (pctDecode (stripCharStr '/' b)))
        | none => (rest1, none)
      let (rest3, quals) :=
        match splitLastOnChar '?' rest2 with
        | some (a, b) => (a, parseQualifiers b)
        | none => (rest2, [])
      let (rest4, version) :=
        match splitLastOnChar '@' rest3 with
        | some (a, b) => (a, strToOptIfNonEmpty (pctDecode b))
        | none => (rest3, none)
      match splitFirstOnChar '/' rest4 with
      | none => none
      | some (ty, nameAndNs) =>
        if ty.isEmpty then none
        else
          let segs := (splitStr '/' (stripCharStr '/' nameAndNs)).filter
            (fun x => !x.isEmpty)
          match segs.getLast? with
          | none => none
          | some nm =>
            let name := pctDecode nm
            if name.isEmpty then none
            else
              some { typ := lowerStr ty
                     nspace := strToOptIfNonEmpty
                       (pctDecode (joinWith "/" segs.dropLast))
                     name := name
                     version := version
                     qualifiers := quals
                     subpath := subpath }

/-- `purl._replace(qualifiers=None, subpath=None)`. -/
def stripQualifiersAndSubpath (p : Purl) : Purl :=
  { p with qualifiers := [], subpath := none }

end SbomCore

namespace CdxMerge

open SbomCore

/-! ## merge_sboms.py — CycloneDX flat component merge

`CDXComponent` wraps a JSON dict; the code reads `name` (mandatory),
`version` (via `.get(...) or ""`) and `purl` (parsed on demand with
`try_parse_purl`, `None` when missing or unparseable). The model carries the
parsed purl directly. -/

structure Component where
  name : String
  version : Option String := none
  purl : Option Purl := none
deriving DecidableEq, Repr

/-- `CDXComponent.version()`: `data.get("version") or ""`. -/
def versionOf (c : Component) : String := c.version.getD ""

/-- `_subpath_is_version`. -/
def subpath_is_version (sp : String) : Bool :=
  strStartsWith sp "v" && isDecimalStr (removePrefixChar 'v' sp)

/-- `_is_syft_local_golang_component`. -/
def is_syft_local_golang_component (c : Component) : Bool :=
  match c.purl with
  | none => false
  | some p =>
    if p.typ ≠ "golang" then false
    else if optTruthy p.subpath && !subpath_is_version (p.subpath.getD "") then true
    else strStartsWith c.name "." || versionOf c == "(devel)"

/-- `_is_cachi2_non_registry_dependency`. -/
def is_cachi2_non_registry_dependency (c : Component) : Bool :=
  match c.purl with
  | none => false
  | some p =>
    (p.typ == "pypi" || p.typ == "npm") &&
      (p.qualifiers.any (fun kv => kv.1 == "vcs_url") ||
        p.qualifiers.any (fun kv => kv.1 == "download_url"))

/-- `_unique_key_cachi2`; `none` models the raised `ValueError` for a
resolver component with no purl. -/
def unique_key_cachi2 (c : Component) : Option String :=
  c.purl.map (fun p => purlToString (stripQualifiersAndSubpath p))

/-- `_unique_key_syft`. -/
def unique_key_syft (c : Component) : String :=
  match c.purl with
  | none => c.name ++ "@" ++ versionOf c
  | some p =>
    let name0 := if p.typ == "pypi" then lowerStr p.name else p.name
    let version0 :=
      if p.typ == "golang" then
        match p.version with
        | some v => if v.isEmpty then some v else some (quotePlus v)
        | none => none
      else p.version
    let foldSubpath :=
      p.typ == "golang" && optTruthy p.subpath && subpath_is_version (p.subpath.getD "")
    let name1 := if foldSubpath then name0 ++ "/" ++ p.subpath.getD "" else name0
    let subpath1 := if foldSubpath then none else p.subpath
    purlToString { p with name := name1, version := version0, subpath := subpath1 }

/-- A `pathlib.PurePosixPath` for relative paths: spurious separators and
single-dot segments collapsed. -/
def normPath (s : String) : List String :=
  (splitStr '/' s).filter (fun seg => !seg.isEmpty && seg ≠ ".")

/-- `Path(a, b)` for the relative paths this code builds. -/
def normPath2 (a b : String) : List String := normPath (a ++ "/" ++ b)

/-- `cachi2_local_paths` computed by `_get_syft_component_filter`. -/
def cachi2_local_paths (cachi2 : List Component) : List (List String) :=
  cachi2.filterMap fun c =>
    match c.purl with
    | some p => if optTruthy p.subpath then some (normPath (p.subpath.getD "")) else none
    | none => none

/-- `cachi2_non_registry_components` computed by `_get_syft_component_filter`. -/
def non_registry_names (cachi2 : List Component) : List String :=
  (cachi2.filter is_cachi2_non_registry_dependency).map (·.name)

/-- `is_duplicate_npm_localpath_component`. -/
def is_duplicate_npm_localpath_component (localPaths : List (List String))
    (c : Component) : Bool :=
  match c.purl with
  | none => false
  | some p => p.typ == "npm" && decide (normPath2 (p.nspace.getD "") p.name ∈ localPaths)

/-- `component_is_duplicated` returned by `_get_syft_component_filter`,
with the resolver-side index keys passed in (`cachi2Keys` is the image of
`_unique_key_cachi2` over the resolver components). -/
def component_is_duplicated (cachi2 : List Component) (cachi2Keys : List String)
    (c : Component) : Bool :=
  is_syft_local_golang_component c
    || decide (c.name ∈ non_registry_names cachi2)
    || is_duplicate_npm_localpath_component (cachi2_local_paths cachi2) c
    || decide (unique_key_syft c ∈ cachi2Keys)

/-- `merge_by_prefering_cachi2` (source spelling kept); `none` models the
`ValueError` raised while indexing a resolver component with no purl. -/
def merge_by_prefering_cachi2 (syft cachi2 : List Component) :
    Option (List Component) :=
  match mapMOpt unique_key_cachi2 cachi2 with
  | none => none
  | some keys =>
    some ((syft.filter fun c => !component_is_duplicated cachi2 keys c) ++ cachi2)

/-- Key used by `merge_by_apparent_sameness`. -/
def componentKey (c : Component) : String :=
  match c.purl with
  | some p => purlToString p
  | none => c.name ++ "@" ++ versionOf c

/-- `merge_by_apparent_sameness`. -/
def merge_by_apparent_sameness (a b : List Component) : List Component :=
  mergeListsBy componentKey a b

/-! ### metadata.tools reconciliation -/

/-- A CycloneDX 1.4 `metadata.tools[]` entry. `hashes`/`externalReferences`
are opaque JSON payloads copied verbatim, modeled as uninterpreted strings. -/
structure Tool where
  name : String
  vendor : Option String := none
  version : Option String := none
  hashes : Option String := none
  externalReferences : Option String := none
deriving DecidableEq, Repr

/-- A CycloneDX 1.5 `metadata.tools.components[]` entry. -/
structure ToolComp where
  name : String
  author : Option String := none
  typ : Option String := none
  version : Option String := none
  hashes : Option String := none
  externalReferences : Option String := none
  purl : Option Purl := none
deriving DecidableEq, Repr

/-- `tool_to_component` of `_merge_tools_metadata` (shared keys copied,
truthy `vendor` renamed to `author`, `type: "application"` added). -/
def tool_to_component (t : Tool) : ToolComp :=
  { name := t.name, version := t.version, hashes := t.hashes,
    externalReferences := t.externalReferences,
    author := if optTruthy t.vendor then t.vendor else none,
    typ := some "application" }

/-- `component_to_tool` of `_merge_tools_metadata`. -/
def component_to_tool (c : ToolComp) : Tool :=
  { name := c.name, version := c.version, hashes := c.hashes,
    externalReferences := c.externalReferences,
    vendor := if optTruthy c.author then c.author else none }

/-- Key of the 1.5-shape dedup (`merge_by_apparent_sameness` over wrapped
tool components: purl string, or `name@version`). -/
def toolCompKey (c : ToolComp) : String :=
  match c.purl with
  | some p => purlToString p
  | none => c.name ++ "@" ++ c.version.getD ""

/-- Key of the 1.4-shape dedup: `(t["name"], t.get("version"))`. -/
def toolKey (t : Tool) : String × Option String := (t.name, t.version)

/-- `.metadata.tools` is either a JSON list (CycloneDX 1.4) or a JSON dict
with a `components` list (CycloneDX 1.5). -/
inductive ToolsRepr where
  | flat (ts : List Tool)
  | nested (cs : List ToolComp)
deriving DecidableEq, Repr

/-- `_merge_tools_metadata`: conform the right side to the left side's shape,
then dedupe. (The `RuntimeError` branch for a shape that is neither dict nor
list is unrepresentable in this model.) -/
def merge_tools_metadata (toolsA toolsB : ToolsRepr) : ToolsRepr :=
  match toolsA with
  | .nested csA =>
    let csB :=
      match toolsB with
      | .nested cs => cs
      | .flat ts => ts.map tool_to_component
    .nested (mergeListsBy toolCompKey csA csB)
  | .flat tsA =>
    let tsB :=
      match toolsB with
      | .nested cs => cs.map component_to_tool
      | .flat ts => ts
    .flat (mergeListsBy toolKey tsA tsB)

/-- The parts of a CycloneDX document the merge engine touches. -/
structure CdxSbom where
  components : List Component
  tools : ToolsRepr
deriving DecidableEq, Repr

/-- `merge_cyclonedx_sboms(sbom_a, sbom_b, merge_components)`: replace
`sbom_a`'s components by the merged list, then reconcile `metadata.tools`,
returning the mutated `sbom_a`. -/
def merge_cyclonedx_sboms (a b : CdxSbom)
    (mergeComponents : List Component → List Component → Option (List Component)) :
    Option CdxSbom :=
  match mergeComponents a.components b.components with
  | none => none
  | some comps =>
    some { components := comps, tools := merge_tools_metadata a.tools b.tools }

end CdxMerge

namespace SpdxCachi2

open SbomCore

/-! ## merge_cachi2_sboms.py — SPDX graph merge

JSON relationship endpoints are strings in well-formed documents, but the
Python code also flows `None` into them (a missing middle element is `None`,
and it is assigned verbatim into a rewritten relationship), so endpoints are
modeled as `Option String` with `none` for Python's `None`. -/

abbrev Elem := Option String

structure Rel where
  spdxElementId : Elem
  relatedSpdxElement : Elem
  relationshipType : String
deriving DecidableEq, Repr

structure ExtRef where
  referenceCategory : String
  referenceType : String
  referenceLocator : String
deriving DecidableEq, Repr

structure Annot where
  annotator : String
  comment : String
  annotationDate : String
  annotationType : String
deriving DecidableEq, Repr

/-- An SPDX package as the merge reads it: `SPDXID` and `name` are mandatory,
`versionInfo` is read with `.get(..., "")`, `externalRefs`/`annotations` with
`.get(..., [])`. -/
structure SPkg where
  SPDXID : String
  name : String
  versionInfo : String := ""
  externalRefs : List ExtRef := []
  annotations : List Annot := []
deriving DecidableEq, Repr

/-- `_is_syft_local_golang_package`. -/
def is_syft_local_golang_package (p : SPkg) : Bool :=
  p.externalRefs.any fun ref =>
    ref.referenceType == "purl" && strStartsWith ref.referenceLocator "pkg:golang" &&
      (strStartsWith p.name "." || p.versionInfo == "(devel)")

/-- `_is_cachi2_non_registry_dependency_spdx`. -/
def is_cachi2_non_registry_dependency_spdx (p : SPkg) : Bool :=
  p.externalRefs.any fun ref =>
    ref.referenceType == "purl" &&
      (strStartsWith ref.referenceLocator "pkg:pypi" ||
        strStartsWith ref.referenceLocator "pkg:npm") &&
      (strContains ref.referenceLocator "vcs_url=" ||
        strContains ref.referenceLocator "download_url=")

/-- `_unique_key_cachi2_spdx`; `none` models the `ValueError` raised by
`PackageURL.from_string` on an unparseable locator. -/
def unique_key_cachi2_spdx (p : SPkg) : Option (List String) :=
  mapMOpt
    (fun ref =>
      (purlFromString ref.referenceLocator).map fun pp =>
        let nm0 := pp.typ ++ "/" ++ pp.nspace.getD "" ++ "/" ++ pp.name
        let nm := if pp.typ == "pypi" then lowerStr nm0 else nm0
        let ver0 := pp.version.getD ""
        let ver := if pp.typ == "golang" then quotePlus ver0 else ver0
        nm ++ "@" ++ ver)
    (p.externalRefs.filter fun r => r.referenceType == "purl")

/-- `_unique_keys_syft_spdx`. The `for ... else` returns `[name@versionInfo]`
when no purl-typed external reference exists. When a parsed purl has a falsy
version, the raw locator string is the key. (The source lower-cases the
whole `type/namespace/name` prefix for every type; the extra `pypi` branch is
then a no-op.) -/
def unique_keys_syft_spdx (p : SPkg) : Option (List String) :=
  if !(p.externalRefs.any fun r => r.referenceType == "purl") then
    some [p.name ++ "@" ++ p.versionInfo]
  else
    mapMOpt
      (fun ref =>
        (purlFromString ref.referenceLocator).map fun pp =>
          if optTruthy pp.version then
            let nm0 := lowerStr (pp.typ ++ "/" ++ pp.nspace.getD "" ++ "/" ++ pp.name)
            let nm := if pp.typ == "pypi" then lowerStr nm0 else nm0
            let ver0 := pp.version.getD ""
            let ver := if pp.typ == "golang" then quotePlus ver0 else ver0
            nm ++ "@" ++ ver
          else ref.referenceLocator)
      (p.externalRefs.filter fun r => r.referenceType == "purl")

/-- `get_package_key` of `merge_packages`:
`json.dumps(sorted(set(keys)), separators=(",", ":"))`. -/
def get_package_key (p : SPkg) : Option String :=
  (unique_keys_syft_spdx p).map fun ks => jsonDumpsStrList (sortByB strLe (dedupL ks))

/-- The per-reference normalization inside `merge_external_refs`: a purl-typed
locator is re-rendered with its qualifiers dropped. -/
def normalizeRefLocator (r : ExtRef) : Option ExtRef :=
  if lowerStr r.referenceType == "purl" then
    (purlFromString r.referenceLocator).map fun pp =>
      { r with referenceLocator := purlToString { pp with qualifiers := [] } }
  else some r

def refLowerTriple (r : ExtRef) : String × String × String :=
  (lowerStr r.referenceCategory, lowerStr r.referenceType, lowerStr r.referenceLocator)

/-- `merge_external_refs`: originals of `refs1`, then those normalized copies
of `refs2` whose lowered (category, type, locator) triple is new. -/
def merge_external_refs (refs1 refs2 : List ExtRef) : Option (List ExtRef) :=
  match mapMOpt normalizeRefLocator refs1, mapMOpt normalizeRefLocator refs2 with
  | some n1, some n2 =>
    let tuples1 := n1.map refLowerTriple
    some (refs1 ++ n2.filter fun r => !tuples1.contains (refLowerTriple r))
  | _, _ => none

/-- `merge_annotations`: union as tuples. (CPython materializes the result
from a `set`, whose iteration order is unspecified; the model fixes
first-insertion order.) -/
def merge_annotations (a1 a2 : List Annot) : List Annot := dedupL (a1 ++ a2)

/-- `sorted(..., key=(referenceCategory, referenceType, referenceLocator))`. -/
def refTripleLe (a b : ExtRef) : Bool :=
  if a.referenceCategory ≠ b.referenceCategory then
    strLt a.referenceCategory b.referenceCategory
  else if a.referenceType ≠ b.referenceType then strLt a.referenceType b.referenceType
  else strLe a.referenceLocator b.referenceLocator

/-- The in-place mutation of a matched cachi2 package inside the
`merge_packages` loop. -/
def mergeDuplicateInto (p cpkg : SPkg) : Option SPkg :=
  (merge_external_refs cpkg.externalRefs p.externalRefs).map fun refs =>
    { cpkg with
      externalRefs := sortByB refTripleLe refs
      annotations := merge_annotations cpkg.annotations p.annotations }

def updateFirstEntry (key : String) (f : SPkg → Option SPkg) :
    List (String × SPkg) → Option (List (String × SPkg))
  | [] => some []
  | (k, p) :: rest =>
    if k = key then (f p).map fun p' => (k, p') :: rest
    else (updateFirstEntry key f rest).map fun rest' => (k, p) :: rest'

/-- Mutate the LAST entry carrying `key` (a Python dict comprehension keeps the
last package per key, and mutating the dict value mutates that object). -/
def updateLastEntry (key : String) (f : SPkg → Option SPkg)
    (l : List (String × SPkg)) : Option (List (String × SPkg)) :=
  (updateFirstEntry key f l.reverse).map List.reverse

/-- The `for p in syft_sbom.get("packages", [])` loop of `merge_packages`,
threading the kept syft packages and the (mutable) cachi2 package map. -/
def merge_packages_go (nonReg : List String) (c2keys : List String) :
    List SPkg → List (String × SPkg) → Option (List SPkg × List (String × SPkg))
  | [], cmap => some ([], cmap)
  | p :: rest, cmap =>
    match unique_keys_syft_spdx p with
    | none => none
    | some pkeys =>
      let dup := is_syft_local_golang_package p || decide (p.name ∈ nonReg) ||
        pkeys.any fun k => decide (k ∈ c2keys)
      if dup then
        let pkey := jsonDumpsStrList (sortByB strLe (dedupL pkeys))
        if (cmap.map (·.1)).contains pkey then
          match updateLastEntry pkey (mergeDuplicateInto p) cmap with
          | none => none
          | some cmap' => merge_packages_go nonReg c2keys rest cmap'
        else merge_packages_go nonReg c2keys rest cmap
      else
        (merge_packages_go nonReg c2keys rest cmap).map fun fm => (p :: fm.1, fm.2)

/-- `merge_packages`: kept syft packages followed by all cachi2 packages
(the latter possibly mutated by external-ref/annotation union). -/
def merge_packages (syft cachi2 : List SPkg) : Option (List SPkg) :=
  match mapMOpt unique_key_cachi2_spdx cachi2 with
  | none => none
  | some keyLists =>
    let nonReg := (cachi2.filter is_cachi2_non_registry_dependency_spdx).map (·.name)
    let c2keys := keyLists.flatten
    match mapMOpt get_package_key cachi2 with
    | none => none
    | some mapKeys =>
      match merge_packages_go nonReg c2keys syft (mapKeys.zip cachi2) with
      | none => none
      | some fm => some (fm.1 ++ fm.2.map (·.2))

/-! ### map_relationships / merge_relationships -/

def memElem (e : Elem) (ids : List String) : Bool :=
  match e with
  | some s => decide (s ∈ ids)
  | none => false

/-- Keys of `relations_map` in insertion order (first occurrence of each
`spdxElementId`). -/
def orderedSources (rels : List Rel) : List Elem :=
  dedupL (rels.map (·.spdxElementId))

/-- All values occurring as `relatedSpdxElement` (= keys of the inverse map). -/
def targetsOf (rels : List Rel) : List Elem :=
  rels.map (·.relatedSpdxElement)

/-- `relations_inverse_map.get(e)`, with Python's `None`-for-absent conflated
into the `Elem` domain (the map keeps the LAST writer per target). -/
def invGetFlat (rels : List Rel) (e : Elem) : Elem :=
  match (rels.filter fun r => r.relatedSpdxElement = e).getLast? with
  | some r => r.spdxElementId
  | none => none

/-- The root computation of `map_relationships`: first source never appearing
as a target; if every source is also a target, the `for` loop falls through
and leaves the LAST source in the loop variable. `none` models the
`UnboundLocalError` on an empty relationship list. -/
def rootOf (rels : List Rel) : Option Elem :=
  match (orderedSources rels).find? (fun k => !decide (k ∈ targetsOf rels)) with
  | some k => some k
  | none => (orderedSources rels).getLast?

/-- `calculate_middle_element`: the LAST source whose (unique, last-write)
parent is the root; `none` when there is no such source. -/
def middleOf (rels : List Rel) (root : Elem) : Elem :=
  (orderedSources rels).foldl (fun acc r => if invGetFlat rels r = root then r else acc)
    none

/-- One iteration of the `for relation in relationships2` loop of
`merge_relationships`: skip the incoming `DESCRIBES(root2 -> middle2)`,
re-root `root2 -> root1` (source first, else target), substitute
`middle2 -> middle1` on both endpoints, and keep the result only if one of
its endpoints is a merged package id. -/
def rewriteRel2 (root1 root2 mid1 mid2 : Elem) (pkgIds : List String) (r : Rel) :
    Option Rel :=
  if r.relatedSpdxElement = mid2 ∧ r.spdxElementId = root2 ∧
      r.relationshipType = "DESCRIBES" then none
  else
    let src1 := if r.spdxElementId = root2 then root1 else r.spdxElementId
    let tgt1 :=
      if r.spdxElementId = root2 then r.relatedSpdxElement
      else if r.relatedSpdxElement = root2 then root1
      else r.relatedSpdxElement
    let src2 := if src1 = mid2 then mid1 else src1
    let tgt2 := if tgt1 = mid2 then mid1 else tgt1
    if memElem tgt2 pkgIds || memElem src2 pkgIds then
      some { spdxElementId := src2, relatedSpdxElement := tgt2,
             relationshipType := r.relationshipType }
    else none

/-- `merge_relationships(relationships1, relationships2, packages)`:
rewritten incoming edges, then base edges whose target is a merged package.
`none` models the crash of `map_relationships` on an empty edge list. -/
def merge_relationships (relationships1 relationships2 : List Rel)
    (packages : List SPkg) : Option (List Rel) :=
  match rootOf relationships1, rootOf relationships2 with
  | some root1, some root2 =>
    let pkgIds := packages.map (·.SPDXID)
    let mid1 := middleOf relationships1 root1
    let mid2 := middleOf relationships2 root2
    some ((relationships2.filterMap (rewriteRel2 root1 root2 mid1 mid2 pkgIds)) ++
      (relationships1.filter fun r => memElem r.relatedSpdxElement pkgIds))
  | _, _ => none

/-! ### The spdx branch of merge_sboms -/

/-- The parts of an SPDX document this merge touches
(`creators` is `creationInfo.creators`). -/
structure SpdxSbom where
  packages : List SPkg := []
  relationships : List Rel := []
  creators : List String := []
deriving DecidableEq, Repr

/-- `packages_in_relationships` (both endpoints of every merged
relationship, in loop order). -/
def relationshipEndpoints (rels : List Rel) : List Elem :=
  rels.foldr (fun r acc => r.spdxElementId :: r.relatedSpdxElement :: acc) []

/-- The `format != "cyclonedx"` branch of `merge_sboms` on in-memory
documents: merge packages, merge relationships, prune packages that appear in
no relationship, and append the cachi2 creators. -/
def merge_sboms_spdx (syft cachi2 : SpdxSbom) : Option SpdxSbom :=
  match merge_packages syft.packages cachi2.packages with
  | none => none
  | some pkgs =>
    match merge_relationships syft.relationships cachi2.relationships pkgs with
    | none => none
    | some rels =>
      let endpoints := relationshipEndpoints rels
      some { packages := pkgs.filter fun p => decide (some p.SPDXID ∈ endpoints)
             relationships := rels
             creators := syft.creators ++ cachi2.creators }

end SpdxCachi2

namespace ParentContent

open SbomCore

/-! ## contextual-sbom/src/parent_content.py — lineage rewrite

`spdx_tools` relationship objects carry typed fields; the enum values this
module inspects are represented explicitly, with a catch-all for the rest. -/

inductive RelationshipType where
  | DESCRIBES
  | CONTAINS
  | BUILD_TOOL_OF
  | DESCENDANT_OF
  | VARIANT_OF
  | OTHER (s : String)
deriving DecidableEq, Repr

structure PRel where
  spdxElementId : String
  relatedSpdxElementId : String
  relationshipType : RelationshipType
deriving DecidableEq, Repr

/-- The fields of an `spdx_tools` annotation this module reads
(`annotation.spdx_id`, `annotation.annotation_comment`). -/
structure PAnnot where
  spdxId : String
  comment : String
deriving DecidableEq, Repr

/-- The sentinel comment compared by
`get_used_parent_image_from_legacy_sbom`. -/
def usedParentSentinel : String :=
  "\x7b\"name\":\"konflux:container:is_base_image\",\"value\":\"true\"\x7d"

/-- `get_used_parent_image_from_legacy_sbom`: the `spdx_id` of the first
annotation whose comment is the sentinel, `none` otherwise. -/
def get_used_parent_image_from_legacy_sbom (annotations : List PAnnot) :
    Option String :=
  (annotations.find? fun a => a.comment == usedParentSentinel).map (·.spdxId)

/-- `convert_to_descendant_of_relationship` on the document's relationship
list: if exactly one relationship is sourced at `g` and it is
`BUILD_TOOL_OF`, flip it to `DESCENDANT_OF` with swapped endpoints (in
place); otherwise (none, several, or a different type) leave the list
unchanged. -/
def convert_to_descendant_of_relationship (rels : List PRel) (g : String) :
    List PRel :=
  match rels.filter fun r => r.spdxElementId = g with
  | [] => rels
  | [r] =>
    if r.relationshipType = RelationshipType.BUILD_TOOL_OF then
      rels.map fun x =>
        if x.spdxElementId = g then
          { spdxElementId := x.relatedSpdxElementId
            relatedSpdxElementId := g
            relationshipType := RelationshipType.DESCENDANT_OF }
        else x
    else rels
  | _ => rels

/-- `adjust_parent_image_relationship_in_legacy_sbom` (`g = ""` is Python's
falsy grandparent id; any existing `DESCENDANT_OF` skips the rewrite). -/
def adjust_parent_image_relationship_in_legacy_sbom (rels : List PRel)
    (g : String) : List PRel :=
  if g = "" then rels
  else if rels.any fun r => r.relationshipType == RelationshipType.DESCENDANT_OF then
    rels
  else convert_to_descendant_of_relationship rels g

end ParentContent

namespace BaseImages

open SbomCore

/-! ## base_images_sbom_script.py — base-image component synthesizer -/

structure ParsedImage where
  repository : String
  digest : String
  name : String
deriving DecidableEq, Repr

/-- `parse_image_reference_to_parts`; `none` models the `ValueError` of the
two unpacking assignments (`split("@")` must give exactly two parts,
`rsplit(":", 1)` requires a colon). -/
def parse_image_reference_to_parts (image : String) : Option ParsedImage :=
  match splitStr '@' image with
  | [repositoryWithTag, digest] =>
    match splitLastOnChar ':' repositoryWithTag with
    | some (repository, _) =>
      some { repository := repository, digest := digest,
             name := (splitStr '/' repository).getLastD "" }
    | none => none
  | _ => none

/-- The property attached at stage `index` out of `total`
(`konflux:container:is_base_image` only for the final, non-scratch stage). -/
def base_image_property (index total : Nat) (is_last_from_scratch : Bool) :
    String × String :=
  if index = total - 1 && !is_last_from_scratch then
    ("konflux:container:is_base_image", "true")
  else
    ("konflux:container:is_builder_image:for_stage", toString index)

/-- A synthesized base-image component (`type`, `name`, `purl`,
`properties`). -/
structure BComponent where
  ctype : String
  name : String
  purl : String
  properties : List (String × String)
deriving DecidableEq, Repr

/-- `PackageURL(type="oci", name=..., version=digest,
qualifiers={"repository_url": ...}).to_string()`. -/
def oci_purl_string (pi : ParsedImage) : String :=
  purlToString { typ := "oci", name := pi.name, version := some pi.digest,
                 qualifiers := [("repository_url", pi.repository)] }

/-- The `for index, image in enumerate(base_images_digests)` loop of
`get_base_images_sbom_components`: a repeated base image only gains an extra
property on its existing component. -/
def componentsLoop (total : Nat) (scratch : Bool) :
    List String → Nat → List String → List BComponent → Option (List BComponent)
  | [], _, _, comps => some comps
  | image :: rest, index, used, comps =>
    match parse_image_reference_to_parts image with
    | none => none
    | some pi =>
      let pr := base_image_property index total scratch
      let purlStr := oci_purl_string pi
      if purlStr ∈ used then
        componentsLoop total scratch rest (index + 1) used
          (comps.map fun c =>
            if c.purl = purlStr then { c with properties := c.properties ++ [pr] }
            else c)
      else
        componentsLoop total scratch rest (index + 1) (used ++ [purlStr])
          (comps ++ [{ ctype := "container", name := pi.repository, purl := purlStr,
                       properties := [pr] }])

/-- `get_base_images_sbom_components(base_images_digests,
is_last_from_scratch)`. -/
def get_base_images_sbom_components (digests : List String) (scratch : Bool) :
    Option (List BComponent) :=
  componentsLoop digests.length scratch digests 0 [] []

/-- In the script's SPDX branch, each property of a component becomes a
package annotation whose comment is
`json.dumps({"name": ..., "value": ...}, separators=(",", ":"))`. -/
def spdx_annotation_comments (c : BComponent) : List String :=
  c.properties.map fun pr => jsonDumpsNameValue pr.1 pr.2

end BaseImages

/-! # Claims -/

namespace SbomCore

theorem mapMOpt_some_of_isSome (f : α → Option β) (l : List α)
    (h : ∀ x ∈ l, (f x).isSome = true) : ∃ ys, mapMOpt f l = some ys := by
  induction l with
  | nil => exact ⟨[], rfl⟩
  | cons x xs ih =>
    obtain ⟨y, hy⟩ := Option.isSome_iff_exists.mp (h x (List.mem_cons_self x xs))
    obtain ⟨ys, hys⟩ := ih fun a ha => h a (List.mem_cons_of_mem x ha)
    exact ⟨y :: ys, by simp [mapMOpt, hy, hys]⟩

end SbomCore

namespace ClaimDataC5

def cycleRels : List SpdxCachi2.Rel :=
  [{ spdxElementId := some "SPDXRef-A", relatedSpdxElement := some "SPDXRef-B",
     relationshipType := "CONTAINS" },
   { spdxElementId := some "SPDXRef-B", relatedSpdxElement := some "SPDXRef-A",
     relationshipType := "CONTAINS" }]

def treeRels : List SpdxCachi2.Rel :=
  [{ spdxElementId := some "SPDXRef-DOCUMENT", relatedSpdxElement := some "SPDXRef-mid",
     relationshipType := "DESCRIBES" },
   { spdxElementId := some "SPDXRef-mid", relatedSpdxElement := some "SPDXRef-pkgA",
     relationshipType := "CONTAINS" }]

end ClaimDataC5

/-- Claim C5, counterexample: on the cyclic, non-empty relationship list
`A -> B -> A` the `for` loop of `map_relationships` falls through without a
`break`, leaving the LAST source (`B`) as the root, although `B` appears as
`relatedSpdxElement` of a relationship. -/
theorem c5_root_no_incoming_counterexample :
    SpdxCachi2.rootOf ClaimDataC5.cycleRels = some (some "SPDXRef-B") ∧
    (some "SPDXRef-B") ∈ SpdxCachi2.targetsOf ClaimDataC5.cycleRels := by decide

/-- Claim C5 (amended): for every relationship list in which some source id
never occurs as a target, the root returned by `map_relationships` is an
element id with no incoming edge. -/
theorem c5_root_no_incoming (rels : List SpdxCachi2.Rel) (k : SpdxCachi2.Elem)
    (hk : k ∈ SpdxCachi2.orderedSources rels)
    (hnt : k ∉ SpdxCachi2.targetsOf rels) :
    ∃ r, SpdxCachi2.rootOf rels = some r ∧ r ∉ SpdxCachi2.targetsOf rels := by
  unfold SpdxCachi2.rootOf
  cases hf : (SpdxCachi2.orderedSources rels).find?
      (fun x => !decide (x ∈ SpdxCachi2.targetsOf rels)) with
  | some x =>
    refine ⟨x, rfl, ?_⟩
    have hx := List.find?_some hf
    simpa using hx
  | none =>
    exfalso
    have h := List.find?_eq_none.mp hf k hk
    simp at h
    exact hnt h

/-- Claim C5, witness: the amended theorem applied to a well-formed two-edge
document graph. -/
theorem c5_root_no_incoming_witness :
    ∃ r, SpdxCachi2.rootOf ClaimDataC5.treeRels = some r ∧
      r ∉ SpdxCachi2.targetsOf ClaimDataC5.treeRels :=
  c5_root_no_incoming ClaimDataC5.treeRels (some "SPDXRef-DOCUMENT") (by decide)
    (by decide)

/-- Claim C6: the local-replacement predicate `_is_syft_local_golang_component`
holds exactly when the purl is golang typed and the component name starts with
a dot, or the version is the literal `(devel)`, or the purl carries a
(non-empty, i.e. truthy) subpath that is not `v` followed by decimal digits. -/
theorem c6_local_replacement_iff (c : CdxMerge.Component) :
    CdxMerge.is_syft_local_golang_component c = true ↔
      ∃ p, c.purl = some p ∧ p.typ = "golang" ∧
        (SbomCore.strStartsWith c.name "." = true ∨
          CdxMerge.versionOf c = "(devel)" ∨
          ∃ sp, p.subpath = some sp ∧ sp ≠ "" ∧
            CdxMerge.subpath_is_version sp = false) := by
  constructor
  · intro h
    rcases hp : c.purl with _ | p
    · simp [CdxMerge.is_syft_local_golang_component, hp] at h
    · simp only [CdxMerge.is_syft_local_golang_component, hp] at h
      split_ifs at h with h1 h2
      · refine ⟨p, rfl, not_not.mp h1, ?_⟩
        rcases hsp : p.subpath with _ | sp
        · rw [hsp] at h2
          simp [SbomCore.optTruthy] at h2
        · rw [hsp] at h2
          simp only [SbomCore.optTruthy, Option.getD_some, Bool.and_eq_true,
            Bool.not_eq_true', decide_eq_true_eq] at h2
          exact Or.inr (Or.inr ⟨sp, rfl, h2.1, h2.2⟩)
      · refine ⟨p, rfl, not_not.mp h1, ?_⟩
        rcases Bool.or_eq_true _ _ |>.mp h with hdot | hdev
        · exact Or.inl hdot
        · exact Or.inr (Or.inl (by simpa using hdev))
  · rintro ⟨p, hp, ht, hdisj⟩
    simp only [CdxMerge.is_syft_local_golang_component, hp]
    rw [if_neg (by simp [ht])]
    by_cases hsub : (SbomCore.optTruthy p.subpath &&
        !CdxMerge.subpath_is_version (p.subpath.getD "")) = true
    · rw [if_pos hsub]
    · rw [if_neg hsub]
      rcases hdisj with hdot | hdev | ⟨sp, hsp, hne, hver⟩
      · simp [hdot]
      · simp [hdev]
      · exfalso
        apply hsub
        rw [hsp]
        simp only [SbomCore.optTruthy, Option.getD_some, Bool.and_eq_true,
          Bool.not_eq_true', decide_eq_true_eq]
        exact ⟨hne, hver⟩

namespace ClaimDataC6

def localGoComp : CdxMerge.Component :=
  { name := "github.com/cachito-testing/gomod-pandemonium",
    version := some "v0.0.0",
    purl := some { typ := "golang", nspace := some "github.com/cachito-testing",
                   name := "gomod-pandemonium", version := some "v0.0.0",
                   subpath := some "terminaltor" } }

end ClaimDataC6

/-- Claim C6, witness: a golang component whose purl carries the non-version
subpath `terminaltor` is a local replacement. -/
theorem c6_local_replacement_iff_witness :
    CdxMerge.is_syft_local_golang_component ClaimDataC6.localGoComp = true :=
  (c6_local_replacement_iff ClaimDataC6.localGoComp).mpr
    ⟨_, rfl, rfl, Or.inr (Or.inr ⟨"terminaltor", rfl, by decide, by decide⟩)⟩

/-- Claim C7: `_unique_key_cachi2` fails (raises) exactly on a component with
no purl, while `_unique_key_syft` on a purl-less component returns
`name + "@" + version`. -/
theorem c7_identity_key_origin (c : CdxMerge.Component) :
    (CdxMerge.unique_key_cachi2 c = none ↔ c.purl = none) ∧
    (c.purl = none →
      CdxMerge.unique_key_syft c = c.name ++ "@" ++ CdxMerge.versionOf c) := by
  constructor
  · cases hp : c.purl <;> simp [CdxMerge.unique_key_cachi2, hp]
  · intro hp
    simp [CdxMerge.unique_key_syft, hp]

namespace ClaimDataC7

def osComponent : CdxMerge.Component := { name := "glibc", version := some "2.34" }

end ClaimDataC7

/-- Claim C7, witness: an OS-level component without a purl. -/
theorem c7_identity_key_origin_witness :
    CdxMerge.unique_key_cachi2 ClaimDataC7.osComponent = none ∧
    CdxMerge.unique_key_syft ClaimDataC7.osComponent = "glibc@2.34" := by
  have h := c7_identity_key_origin ClaimDataC7.osComponent
  exact ⟨h.1.mpr rfl, (h.2 rfl).trans (by decide)⟩

/-- Claim C9: the coarse resolver key `_unique_key_cachi2` is invariant under
qualifiers and subpath, and equals the rendering of the purl with qualifiers
and subpath removed. -/
theorem c9_coarse_key_invariance (c c' : CdxMerge.Component) (p p' : SbomCore.Purl)
    (hc : c.purl = some p) (hc' : c'.purl = some p')
    (ht : p.typ = p'.typ) (hn : p.nspace = p'.nspace)
    (hm : p.name = p'.name) (hv : p.version = p'.version) :
    CdxMerge.unique_key_cachi2 c = CdxMerge.unique_key_cachi2 c' ∧
    CdxMerge.unique_key_cachi2 c =
      some (SbomCore.purlToString { p with qualifiers := [], subpath := none }) := by
  have hstrip : SbomCore.stripQualifiersAndSubpath p =
      SbomCore.stripQualifiersAndSubpath p' := by
    cases p; cases p'
    simp_all [SbomCore.stripQualifiersAndSubpath]
  constructor
  · simp [CdxMerge.unique_key_cachi2, hc, hc', hstrip]
  · simp [CdxMerge.unique_key_cachi2, hc, SbomCore.stripQualifiersAndSubpath]

namespace ClaimDataC9

def plainPurl : SbomCore.Purl := { typ := "pypi", name := "requests", version := some "2.3" }

def noisyPurl : SbomCore.Purl :=
  { typ := "pypi", name := "requests", version := some "2.3",
    qualifiers := [("vcs_url", "git+https://github.com/psf/requests")],
    subpath := some "src" }

def plainComp : CdxMerge.Component := { name := "requests", purl := some plainPurl }

def noisyComp : CdxMerge.Component := { name := "requests", purl := some noisyPurl }

end ClaimDataC9

/-- Claim C9, witness: adding a `vcs_url` qualifier and a subpath does not
change the coarse key. -/
theorem c9_coarse_key_invariance_witness :
    CdxMerge.unique_key_cachi2 ClaimDataC9.plainComp =
      CdxMerge.unique_key_cachi2 ClaimDataC9.noisyComp ∧
    CdxMerge.unique_key_cachi2 ClaimDataC9.plainComp = some "pkg:pypi/requests@2.3" := by
  have h := c9_coarse_key_invariance ClaimDataC9.plainComp ClaimDataC9.noisyComp
    ClaimDataC9.plainPurl ClaimDataC9.noisyPurl rfl rfl rfl rfl rfl rfl
  exact ⟨h.1, h.2.trans (by decide)⟩

/-- Claim C4: with a marked (non-empty) grandparent id, the lineage rewrite
flips the unique `BUILD_TOOL_OF` relationship sourced at the grandparent into
a `DESCENDANT_OF` relationship with swapped endpoints, and in every other
case — no such relationship, several of them, a different type, or a
`DESCENDANT_OF` already present — returns the relationships unchanged. -/
theorem c4_lineage_rewrite (rels : List ParentContent.PRel) (g : String)
    (hg : g ≠ "") :
    (∀ r, rels.filter (fun x => x.spdxElementId = g) = [r] →
      r.relationshipType = ParentContent.RelationshipType.BUILD_TOOL_OF →
      (∀ x ∈ rels,
        x.relationshipType ≠ ParentContent.RelationshipType.DESCENDANT_OF) →
      ParentContent.adjust_parent_image_relationship_in_legacy_sbom rels g =
        rels.map fun x =>
          if x.spdxElementId = g then
            { spdxElementId := x.relatedSpdxElementId, relatedSpdxElementId := g,
              relationshipType := ParentContent.RelationshipType.DESCENDANT_OF }
          else x) ∧
    (¬ ((∃ r, rels.filter (fun x => x.spdxElementId = g) = [r] ∧
          r.relationshipType = ParentContent.RelationshipType.BUILD_TOOL_OF) ∧
        ∀ x ∈ rels,
          x.relationshipType ≠ ParentContent.RelationshipType.DESCENDANT_OF) →
      ParentContent.adjust_parent_image_relationship_in_legacy_sbom rels g = rels) := by
  constructor
  · intro r hfil hbto hnod
    have hany : (rels.any fun r =>
        r.relationshipType == ParentContent.RelationshipType.DESCENDANT_OF) = false := by
      simp only [List.any_eq_false, beq_iff_eq]
      exact hnod
    unfold ParentContent.adjust_parent_image_relationship_in_legacy_sbom
    rw [if_neg hg, if_neg (by simp [hany])]
    unfold ParentContent.convert_to_descendant_of_relationship
    rw [hfil]
    simp [hbto]
  · intro hnot
    unfold ParentContent.adjust_parent_image_relationship_in_legacy_sbom
    rw [if_neg hg]
    by_cases hany : (rels.any fun r =>
        r.relationshipType == ParentContent.RelationshipType.DESCENDANT_OF) = true
    · rw [if_pos (by simpa using hany)]
    · rw [if_neg (by simpa using hany)]
      have hnod : ∀ x ∈ rels,
          x.relationshipType ≠ ParentContent.RelationshipType.DESCENDANT_OF := by
        intro x hx
        have := List.any_eq_false.mp (Bool.not_eq_true _ |>.mp hany) x hx
        simpa using this
      unfold ParentContent.convert_to_descendant_of_relationship
      cases hfil : rels.filter (fun x => x.spdxElementId = g) with
      | nil => rfl
      | cons r rest =>
        cases rest with
        | nil =>
          have hr : r.relationshipType ≠ ParentContent.RelationshipType.BUILD_TOOL_OF := by
            intro hbto
            exact hnot ⟨⟨r, hfil, hbto⟩, hnod⟩
          simp [hr]
        | cons r2 rest2 => rfl

namespace ClaimDataC4

def legacyRels : List ParentContent.PRel :=
  [{ spdxElementId := "SPDXRef-image", relatedSpdxElementId := "SPDXRef-pkg1",
     relationshipType := ParentContent.RelationshipType.CONTAINS },
   { spdxElementId := "SPDXRef-grandparent", relatedSpdxElementId := "SPDXRef-image",
     relationshipType := ParentContent.RelationshipType.BUILD_TOOL_OF }]

def ambiguousRels : List ParentContent.PRel :=
  legacyRels ++
    [{ spdxElementId := "SPDXRef-grandparent", relatedSpdxElementId := "SPDXRef-x",
       relationshipType := ParentContent.RelationshipType.VARIANT_OF }]

def buildToolRel : ParentContent.PRel :=
  { spdxElementId := "SPDXRef-grandparent", relatedSpdxElementId := "SPDXRef-image",
    relationshipType := ParentContent.RelationshipType.BUILD_TOOL_OF }

end ClaimDataC4

/-- Claim C4, witness: the single `BUILD_TOOL_OF` edge
`grandparent -> image` is flipped to `image DESCENDANT_OF grandparent`; with a
second relationship sourced at the grandparent the list is passed through. -/
theorem c4_lineage_rewrite_witness :
    ParentContent.adjust_parent_image_relationship_in_legacy_sbom
        ClaimDataC4.legacyRels "SPDXRef-grandparent" =
      [{ spdxElementId := "SPDXRef-image", relatedSpdxElementId := "SPDXRef-pkg1",
         relationshipType := ParentContent.RelationshipType.CONTAINS },
       { spdxElementId := "SPDXRef-image", relatedSpdxElementId := "SPDXRef-grandparent",
         relationshipType := ParentContent.RelationshipType.DESCENDANT_OF }] ∧
    ParentContent.adjust_parent_image_relationship_in_legacy_sbom
        ClaimDataC4.ambiguousRels "SPDXRef-grandparent" =
      ClaimDataC4.ambiguousRels := by
  have h := c4_lineage_rewrite ClaimDataC4.legacyRels "SPDXRef-grandparent" (by decide)
  have h2 := c4_lineage_rewrite ClaimDataC4.ambiguousRels "SPDXRef-grandparent"
    (by decide)
  constructor
  · exact (h.1 ClaimDataC4.buildToolRel (by decide) (by decide) (by decide)).trans
      (by decide)
  · refine h2.2 ?_
    rintro ⟨⟨r, hfil, -⟩, -⟩
    have hlen : (ClaimDataC4.ambiguousRels.filter
        (fun x => x.spdxElementId = "SPDXRef-grandparent")).length = 2 := by decide
    rw [hfil] at hlen
    simp at hlen

namespace ClaimDataC3

def syftNpmComp : CdxMerge.Component :=
  { name := "client", version := some "1.0.0",
    purl := some { typ := "npm", name := "client", version := some "1.0.0" } }

def cachiNpmComp : CdxMerge.Component :=
  { name := "foo", version := some "1.0.0",
    purl := some { typ := "npm", name := "foo", version := some "1.0.0",
                   subpath := some "client" } }

def syftGoComp : CdxMerge.Component :=
  { name := "ex", version := some "v1.0.0",
    purl := some { typ := "golang", name := "ex", version := some "v1.0.0" } }

def syftLocalComp : CdxMerge.Component :=
  { name := "./local", version := some "(devel)",
    purl := some { typ := "golang", name := "./local", version := some "(devel)" } }

def cachiGoComp : CdxMerge.Component :=
  { name := "ex", version := some "v1.0.0",
    purl := some { typ := "golang", name := "ex", version := some "v1.0.0" } }

end ClaimDataC3

/-- The duplicate predicate exactly as claim C3 words it (fine-normalized key
matching a trusted coarse key, local golang replacement, or non-registry
duplicate by name) — a spec-side definition to compare against the source
predicate `component_is_duplicated`, which also drops npm path-dependency
duplicates. -/
def c3ClaimedDuplicate (cachi2 : List CdxMerge.Component) (ks : List String)
    (c : CdxMerge.Component) : Bool :=
  CdxMerge.is_syft_local_golang_component c
    || decide (c.name ∈ CdxMerge.non_registry_names cachi2)
    || decide (CdxMerge.unique_key_syft c ∈ ks)

/-- Claim C3, counterexample: a syft `pkg:npm/client@1.0.0` component is
dropped because the cachi2 component `pkg:npm/foo@1.0.0#client` records the
local path `client`, although none of the claim's three conditions holds —
the output under the claim's characterization would keep it. -/
theorem c3_authority_wins_merge_counterexample :
    CdxMerge.merge_by_prefering_cachi2 [ClaimDataC3.syftNpmComp]
        [ClaimDataC3.cachiNpmComp] = some [ClaimDataC3.cachiNpmComp] ∧
    SbomCore.mapMOpt CdxMerge.unique_key_cachi2 [ClaimDataC3.cachiNpmComp] =
      some ["pkg:npm/foo@1.0.0"] ∧
    c3ClaimedDuplicate [ClaimDataC3.cachiNpmComp] ["pkg:npm/foo@1.0.0"]
      ClaimDataC3.syftNpmComp = false ∧
    CdxMerge.merge_by_prefering_cachi2 [ClaimDataC3.syftNpmComp]
        [ClaimDataC3.cachiNpmComp] ≠
      some (([ClaimDataC3.syftNpmComp].filter fun c =>
          !c3ClaimedDuplicate [ClaimDataC3.cachiNpmComp] ["pkg:npm/foo@1.0.0"] c) ++
        [ClaimDataC3.cachiNpmComp]) := by decide

/-- Claim C3 (amended): the authority-wins merge returns exactly the untrusted
(syft) components for which the source duplicate predicate — local golang
replacement, non-registry duplicate by name, npm path-dependency duplicate,
or fine key among the trusted coarse keys — is false, in their original
order, followed by every trusted (cachi2) component unaltered. -/
theorem c3_authority_wins_merge (syft cachi2 : List CdxMerge.Component)
    (ks : List String)
    (hk : SbomCore.mapMOpt CdxMerge.unique_key_cachi2 cachi2 = some ks) :
    CdxMerge.merge_by_prefering_cachi2 syft cachi2 =
      some ((syft.filter fun c => !CdxMerge.component_is_duplicated cachi2 ks c) ++
        cachi2) := by
  unfold CdxMerge.merge_by_prefering_cachi2
  rw [hk]

/-- Claim C3, witness (the spec's golang scenario): a trusted
`pkg:golang/ex@v1.0.0` removes the matching scanner entry and the
local-replacement entry `pkg:golang/./local@(devel)`. -/
theorem c3_authority_wins_merge_witness :
    CdxMerge.merge_by_prefering_cachi2
        [ClaimDataC3.syftGoComp, ClaimDataC3.syftLocalComp]
        [ClaimDataC3.cachiGoComp] = some [ClaimDataC3.cachiGoComp] :=
  (c3_authority_wins_merge [ClaimDataC3.syftGoComp, ClaimDataC3.syftLocalComp]
      [ClaimDataC3.cachiGoComp] ["pkg:golang/ex@v1.0.0"] (by decide)).trans
    (by decide)

namespace ClaimDataC8

def dupTool : CdxMerge.Tool := { name := "syft", version := some "0.47.0" }

def extraTool : CdxMerge.Tool := { name := "cachi2", vendor := some "red hat" }

def aComp : CdxMerge.Component :=
  { name := "pkg-a", version := some "1.0.0",
    purl := some { typ := "pypi", name := "pkg-a", version := some "1.0.0" } }

def authoritativeSbom : CdxMerge.CdxSbom :=
  { components := [aComp], tools := CdxMerge.ToolsRepr.flat [dupTool, dupTool] }

def emptyCounterpart : CdxMerge.CdxSbom :=
  { components := [], tools := CdxMerge.ToolsRepr.flat [] }

def witnessSbom : CdxMerge.CdxSbom :=
  { components := [aComp],
    tools := CdxMerge.ToolsRepr.flat [dupTool, extraTool, dupTool] }

end ClaimDataC8

/-- Claim C8, counterexample: merging an authoritative document whose
`metadata.tools` lists the same tool twice with an empty counterpart dedupes
the tools by `(name, version)`, so the output differs from the input. -/
theorem c8_empty_counterpart_counterexample :
    CdxMerge.merge_cyclonedx_sboms ClaimDataC8.emptyCounterpart
        ClaimDataC8.authoritativeSbom CdxMerge.merge_by_prefering_cachi2 =
      some { components := [ClaimDataC8.aComp],
             tools := CdxMerge.ToolsRepr.flat [ClaimDataC8.dupTool] } ∧
    ({ components := [ClaimDataC8.aComp],
       tools := CdxMerge.ToolsRepr.flat [ClaimDataC8.dupTool] } : CdxMerge.CdxSbom) ≠
      ClaimDataC8.authoritativeSbom := by decide

/-- Claim C8 (amended): merging an authoritative CycloneDX document (whose
components all carry purls, and whose `metadata.tools` uses the same 1.4 list
shape as the empty counterpart) with an empty counterpart preserves the
components exactly, in order, and keeps `metadata.tools` up to deduplication
by `(name, version)` — the first occurrence of each pair survives. -/
theorem c8_empty_counterpart_merge (A : CdxMerge.CdxSbom) (T : List CdxMerge.Tool)
    (htools : A.tools = CdxMerge.ToolsRepr.flat T)
    (hp : ∀ c ∈ A.components, c.purl.isSome = true) :
    CdxMerge.merge_cyclonedx_sboms
        { components := [], tools := CdxMerge.ToolsRepr.flat [] } A
        CdxMerge.merge_by_prefering_cachi2 =
      some { components := A.components,
             tools := CdxMerge.ToolsRepr.flat (SbomCore.dedupeBy CdxMerge.toolKey T) } := by
  obtain ⟨ks, hks⟩ : ∃ ks,
      SbomCore.mapMOpt CdxMerge.unique_key_cachi2 A.components = some ks := by
    apply SbomCore.mapMOpt_some_of_isSome
    intro c hc
    rcases Option.isSome_iff_exists.mp (hp c hc) with ⟨p, hpc⟩
    simp [CdxMerge.unique_key_cachi2, hpc]
  have hmerge : CdxMerge.merge_by_prefering_cachi2 [] A.components =
      some A.components := by
    unfold CdxMerge.merge_by_prefering_cachi2
    rw [hks]
    simp
  simp only [CdxMerge.merge_cyclonedx_sboms]
  rw [hmerge]
  have htools' : CdxMerge.merge_tools_metadata (CdxMerge.ToolsRepr.flat []) A.tools =
      CdxMerge.ToolsRepr.flat (SbomCore.dedupeBy CdxMerge.toolKey T) := by
    rw [htools]
    simp [CdxMerge.merge_tools_metadata, SbomCore.mergeListsBy]
  rw [htools']

/-- Claim C8, witness: the amended theorem applied to a document with a
duplicated syft tool entry. -/
theorem c8_empty_counterpart_merge_witness :
    CdxMerge.merge_cyclonedx_sboms ClaimDataC8.emptyCounterpart
        ClaimDataC8.witnessSbom CdxMerge.merge_by_prefering_cachi2 =
      some { components := [ClaimDataC8.aComp],
             tools := CdxMerge.ToolsRepr.flat
               [ClaimDataC8.dupTool, ClaimDataC8.extraTool] } :=
  (c8_empty_counterpart_merge ClaimDataC8.witnessSbom
      [ClaimDataC8.dupTool, ClaimDataC8.extraTool, ClaimDataC8.dupTool] rfl
      (by decide)).trans (by decide)

namespace BaseImages

theorem componentsLoop_last_property (scratch : Bool) :
    ∀ (imgs : List String) (total idx : Nat) (used : List String)
      (comps out : List BComponent),
      imgs ≠ [] → idx + imgs.length = total →
      (∀ u ∈ used, ∃ c ∈ comps, c.purl = u) →
      componentsLoop total scratch imgs idx used comps = some out →
      ∃ c ∈ out, base_image_property (total - 1) total scratch ∈ c.properties := by
  intro imgs
  induction imgs with
  | nil => intro _ _ _ _ _ hne; exact absurd rfl hne
  | cons image rest ih =>
    intro total idx used comps out _ hlen hinv hout
    unfold componentsLoop at hout
    cases hpi : parse_image_reference_to_parts image with
    | none => rw [hpi] at hout; exact Option.noConfusion hout
    | some pi =>
      simp only [hpi] at hout
      cases rest with
      | nil =>
        have hidx : base_image_property (total - 1) total scratch =
            base_image_property idx total scratch := by
          have : idx = total - 1 := by simp at hlen; omega
          rw [this]
        by_cases hused : oci_purl_string pi ∈ used
        · rw [if_pos hused] at hout
          simp only [componentsLoop] at hout
          cases hout
          obtain ⟨c, hc, hcp⟩ := hinv _ hused
          refine ⟨{ c with properties :=
              c.properties ++ [base_image_property idx total scratch] },
            List.mem_map.mpr ⟨c, hc, by simp [hcp]⟩, ?_⟩
          rw [hidx]
          exact List.mem_append_right _ (List.mem_singleton_self _)
        · rw [if_neg hused] at hout
          simp only [componentsLoop] at hout
          cases hout
          refine ⟨_, List.mem_append_right _ (List.mem_singleton_self _), ?_⟩
          rw [hidx]
          exact List.mem_singleton_self _
      | cons img2 rest2 =>
        have hlen' : (idx + 1) + (img2 :: rest2).length = total := by
          simp at hlen ⊢; omega
        by_cases hused : oci_purl_string pi ∈ used
        · rw [if_pos hused] at hout
          refine ih total (idx + 1) used _ out (by simp) hlen' ?_ hout
          intro u hu
          obtain ⟨c, hc, hcp⟩ := hinv u hu
          refine ⟨(if c.purl = oci_purl_string pi then
              { c with properties :=
                  c.properties ++ [base_image_property idx total scratch] }
            else c), List.mem_map_of_mem _ hc, ?_⟩
          split_ifs with hcc
          · exact hcp
          · exact hcp
        · rw [if_neg hused] at hout
          refine ih total (idx + 1) (used ++ [oci_purl_string pi]) _ out (by simp)
            hlen' ?_ hout
          intro u hu
          rcases List.mem_append.mp hu with hu1 | hu2
          · obtain ⟨c, hc, hcp⟩ := hinv u hu1
            exact ⟨c, List.mem_append_left _ hc, hcp⟩
          · have hu2' : u = oci_purl_string pi := by simpa using hu2
            subst hu2'
            exact ⟨_, List.mem_append_right _ (List.mem_singleton_self _), rfl⟩

end BaseImages

namespace SpdxCachi2

theorem relationshipEndpoints_nil : relationshipEndpoints [] = [] := rfl

theorem relationshipEndpoints_cons (r : Rel) (rest : List Rel) :
    relationshipEndpoints (r :: rest) =
      r.spdxElementId :: r.relatedSpdxElement :: relationshipEndpoints rest := rfl

theorem mem_relationshipEndpoints (rels : List Rel) (e : Elem) :
    e ∈ relationshipEndpoints rels ↔
      ∃ r ∈ rels, r.spdxElementId = e ∨ r.relatedSpdxElement = e := by
  induction rels with
  | nil => simp [relationshipEndpoints_nil]
  | cons r rest ih =>
    simp only [relationshipEndpoints_cons, List.mem_cons, ih]
    constructor
    · rintro (he | he | ⟨r', hr', hor⟩)
      · exact ⟨r, Or.inl rfl, Or.inl he.symm⟩
      · exact ⟨r, Or.inl rfl, Or.inr he.symm⟩
      · exact ⟨r', Or.inr hr', hor⟩
    · rintro ⟨r', (rfl | hr'), hor⟩
      · rcases hor with he | he
        · exact Or.inl he.symm
        · exact Or.inr (Or.inl he.symm)
      · exact Or.inr (Or.inr ⟨r', hr', hor⟩)

theorem rewriteRel2_type (root1 root2 mid1 mid2 : Elem) (pkgIds : List String)
    (r r' : Rel) (h : rewriteRel2 root1 root2 mid1 mid2 pkgIds r = some r') :
    r'.relationshipType = r.relationshipType := by
  simp only [rewriteRel2] at h
  split_ifs at h <;>
    first
      | exact Option.noConfusion h
      | (cases h; rfl)

theorem rewriteRel2_skip (root1 root2 mid1 mid2 : Elem) (pkgIds : List String)
    (r : Rel) (hd : r.relatedSpdxElement = mid2) (hs : r.spdxElementId = root2)
    (ht : r.relationshipType = "DESCRIBES") :
    rewriteRel2 root1 root2 mid1 mid2 pkgIds r = none := by
  simp only [rewriteRel2]
  rw [if_pos ⟨hd, hs, ht⟩]

theorem rewriteRel2_endpoints (root1 root2 mid1 mid2 : Elem) (pkgIds : List String)
    (r r' : Rel)
    (hs : r.spdxElementId = root2 ∨ r.spdxElementId = mid2 ∨
      memElem r.spdxElementId pkgIds = true)
    (ht : r.relatedSpdxElement = mid2 ∨ memElem r.relatedSpdxElement pkgIds = true)
    (h : rewriteRel2 root1 root2 mid1 mid2 pkgIds r = some r') :
    (r'.spdxElementId = root1 ∨ r'.spdxElementId = mid1 ∨
      memElem r'.spdxElementId pkgIds = true) ∧
    (r'.relatedSpdxElement = root1 ∨ r'.relatedSpdxElement = mid1 ∨
      memElem r'.relatedSpdxElement pkgIds = true) := by
  simp only [rewriteRel2] at h
  split_ifs at h <;>
    first
      | exact Option.noConfusion h
      | (cases h; constructor <;> simp_all)

theorem filter_swap (p q : α → Bool) (l : List α) :
    (l.filter q).filter p = (l.filter p).filter q := by
  induction l with
  | nil => rfl
  | cons x xs ih =>
    by_cases hp : p x = true <;> by_cases hq : q x = true <;>
      simp [List.filter_cons, hp, hq, ih]

theorem merge_relationships_eq (rels1 rels2 : List Rel) (pkgs : List SPkg)
    (root1 root2 : Elem) (hr1 : rootOf rels1 = some root1)
    (hr2 : rootOf rels2 = some root2) :
    merge_relationships rels1 rels2 pkgs =
      some ((rels2.filterMap (rewriteRel2 root1 root2 (middleOf rels1 root1)
          (middleOf rels2 root2) (pkgs.map (·.SPDXID)))) ++
        (rels1.filter fun r =>
          memElem r.relatedSpdxElement (pkgs.map (·.SPDXID)))) := by
  simp only [merge_relationships, hr1, hr2]

theorem merge_sboms_spdx_eq (syft cachi2 : SpdxSbom) (pkgs : List SPkg)
    (rels : List Rel)
    (hmp : merge_packages syft.packages cachi2.packages = some pkgs)
    (hmr : merge_relationships syft.relationships cachi2.relationships pkgs =
      some rels) :
    merge_sboms_spdx syft cachi2 =
      some { packages := pkgs.filter fun p =>
               decide (some p.SPDXID ∈ relationshipEndpoints rels)
             relationships := rels
             creators := syft.creators ++ cachi2.creators } := by
  simp only [merge_sboms_spdx, hmp, hmr]

theorem endpoint_in_pruned (pkgs : List SPkg) (rels : List Rel) (r : Rel)
    (hr : r ∈ rels) (e : Elem)
    (he : r.spdxElementId = e ∨ r.relatedSpdxElement = e)
    (hmem : memElem e (pkgs.map (·.SPDXID)) = true) :
    ∃ p ∈ pkgs.filter (fun p => decide (some p.SPDXID ∈ relationshipEndpoints rels)),
      e = some p.SPDXID := by
  cases e with
  | none => simp [memElem] at hmem
  | some s =>
    simp only [memElem, decide_eq_true_eq] at hmem
    obtain ⟨p, hp, hps⟩ := List.mem_map.mp hmem
    refine ⟨p, ?_, by rw [hps]⟩
    rw [List.mem_filter]
    refine ⟨hp, decide_eq_true ?_⟩
    exact (mem_relationshipEndpoints rels (some p.SPDXID)).mpr
      ⟨r, hr, by rw [hps]; exact he⟩

end SpdxCachi2

namespace ClaimDataC1

def pkgA : SpdxCachi2.SPkg := { SPDXID := "SPDXRef-pkgA", name := "a", versionInfo := "1" }

def pkgB : SpdxCachi2.SPkg := { SPDXID := "SPDXRef-pkgB", name := "b", versionInfo := "2" }

def midPkg : SpdxCachi2.SPkg := { SPDXID := "SPDXRef-mid1", name := "image-root" }

def syftRels : List SpdxCachi2.Rel :=
  [{ spdxElementId := some "SPDXRef-DOCUMENT", relatedSpdxElement := some "SPDXRef-mid1",
     relationshipType := "DESCRIBES" },
   { spdxElementId := some "SPDXRef-mid1", relatedSpdxElement := some "SPDXRef-pkgA",
     relationshipType := "CONTAINS" }]

def cachiRels : List SpdxCachi2.Rel :=
  [{ spdxElementId := some "SPDXRef-DOC2", relatedSpdxElement := some "SPDXRef-mid2",
     relationshipType := "DESCRIBES" },
   { spdxElementId := some "SPDXRef-mid2", relatedSpdxElement := some "SPDXRef-pkgB",
     relationshipType := "CONTAINS" }]

/-- A syft document whose middle element is NOT itself listed in `packages`. -/
def syftDocNoMid : SpdxCachi2.SpdxSbom :=
  { packages := [pkgA], relationships := syftRels, creators := ["Tool: syft"] }

/-- A syft document whose middle element is a package (the usual shape). -/
def syftDocWithMid : SpdxCachi2.SpdxSbom :=
  { packages := [midPkg, pkgA], relationships := syftRels, creators := ["Tool: syft"] }

def cachiDoc : SpdxCachi2.SpdxSbom :=
  { packages := [pkgB], relationships := cachiRels, creators := ["Tool: cachi2"] }

def describesRel : SpdxCachi2.Rel :=
  { spdxElementId := some "SPDXRef-DOCUMENT", relatedSpdxElement := some "SPDXRef-mid1",
    relationshipType := "DESCRIBES" }

end ClaimDataC1

/-- Claim C1, counterexample: both inputs carry exactly one `DESCRIBES`
relationship rooted at their root, yet the merged output carries none,
because the base document's middle element is not among the merged packages,
so the base `DESCRIBES` edge is dropped by the package filter of
`merge_relationships`. -/
theorem c1_spdx_describes_counterexample :
    (ClaimDataC1.syftDocNoMid.relationships.filter
      (fun r => r.relationshipType == "DESCRIBES")).length = 1 ∧
    (ClaimDataC1.cachiDoc.relationships.filter
      (fun r => r.relationshipType == "DESCRIBES")).length = 1 ∧
    SpdxCachi2.merge_sboms_spdx ClaimDataC1.syftDocNoMid ClaimDataC1.cachiDoc =
      some { packages := [ClaimDataC1.pkgA, ClaimDataC1.pkgB],
             relationships :=
               [{ spdxElementId := some "SPDXRef-mid1",
                  relatedSpdxElement := some "SPDXRef-pkgB",
                  relationshipType := "CONTAINS" },
                { spdxElementId := some "SPDXRef-mid1",
                  relatedSpdxElement := some "SPDXRef-pkgA",
                  relationshipType := "CONTAINS" }],
             creators := ["Tool: syft", "Tool: cachi2"] } ∧
    ([{ spdxElementId := some "SPDXRef-mid1",
        relatedSpdxElement := some "SPDXRef-pkgB",
        relationshipType := "CONTAINS" },
      { spdxElementId := some "SPDXRef-mid1",
        relatedSpdxElement := some "SPDXRef-pkgA",
        relationshipType := "CONTAINS" }] : List SpdxCachi2.Rel).filter
      (fun r => r.relationshipType == "DESCRIBES") = [] := by decide

/-- Claim C1 (amended): when the base (syft) document's unique `DESCRIBES`
relationship is rooted at its root and its target survives into the merged
package set, and every `DESCRIBES` relationship of the incoming (cachi2)
document is the `root2 -> middle2` one, the merged output contains exactly
one `DESCRIBES` relationship, and its `spdxElementId` is the base document's
root. -/
theorem c1_spdx_describes (syft cachi2 : SpdxCachi2.SpdxSbom)
    (pkgs : List SpdxCachi2.SPkg) (root1 root2 : SpdxCachi2.Elem)
    (d : SpdxCachi2.Rel)
    (hmp : SpdxCachi2.merge_packages syft.packages cachi2.packages = some pkgs)
    (hr1 : SpdxCachi2.rootOf syft.relationships = some root1)
    (hr2 : SpdxCachi2.rootOf cachi2.relationships = some root2)
    (hd1 : syft.relationships.filter
      (fun r => r.relationshipType == "DESCRIBES") = [d])
    (hdsrc : d.spdxElementId = root1)
    (hdtgt : SpdxCachi2.memElem d.relatedSpdxElement (pkgs.map (·.SPDXID)) = true)
    (hd2 : ∀ r ∈ cachi2.relationships, r.relationshipType = "DESCRIBES" →
      r.spdxElementId = root2 ∧
      r.relatedSpdxElement = SpdxCachi2.middleOf cachi2.relationships root2) :
    ∃ out, SpdxCachi2.merge_sboms_spdx syft cachi2 = some out ∧
      out.relationships.filter (fun r => r.relationshipType == "DESCRIBES") = [d] ∧
      d.spdxElementId = root1 := by
  have hmr := SpdxCachi2.merge_relationships_eq syft.relationships
    cachi2.relationships pkgs root1 root2 hr1 hr2
  refine ⟨_, SpdxCachi2.merge_sboms_spdx_eq syft cachi2 pkgs _ hmp hmr, ?_, hdsrc⟩
  rw [List.filter_append]
  have hA : (cachi2.relationships.filterMap
      (SpdxCachi2.rewriteRel2 root1 root2 (SpdxCachi2.middleOf syft.relationships root1)
        (SpdxCachi2.middleOf cachi2.relationships root2)
        (pkgs.map (·.SPDXID)))).filter
      (fun r => r.relationshipType == "DESCRIBES") = [] := by
    rw [List.filter_eq_nil_iff]
    intro a ha hp
    obtain ⟨b, hb, hfb⟩ := List.mem_filterMap.mp ha
    have htyp := SpdxCachi2.rewriteRel2_type _ _ _ _ _ _ _ hfb
    have hbd : b.relationshipType = "DESCRIBES" := by
      rw [← htyp]
      exact beq_iff_eq.mp hp
    obtain ⟨hbs, hbt⟩ := hd2 b hb hbd
    rw [SpdxCachi2.rewriteRel2_skip _ _ _ _ _ _ hbt hbs hbd] at hfb
    exact Option.noConfusion hfb
  have hB : (syft.relationships.filter fun r =>
      SpdxCachi2.memElem r.relatedSpdxElement (pkgs.map (·.SPDXID))).filter
      (fun r => r.relationshipType == "DESCRIBES") = [d] := by
    rw [SpdxCachi2.filter_swap, hd1]
    simp [List.filter_cons, hdtgt]
  rw [hA, hB, List.nil_append]

/-- Claim C1, witness: the amended theorem applied to two well-formed
documents whose base middle element is itself a package that survives the
merge. -/
theorem c1_spdx_describes_witness :
    ∃ out, SpdxCachi2.merge_sboms_spdx ClaimDataC1.syftDocWithMid
        ClaimDataC1.cachiDoc = some out ∧
      out.relationships.filter (fun r => r.relationshipType == "DESCRIBES") =
        [ClaimDataC1.describesRel] ∧
      ClaimDataC1.describesRel.spdxElementId = some "SPDXRef-DOCUMENT" :=
  c1_spdx_describes ClaimDataC1.syftDocWithMid ClaimDataC1.cachiDoc
    [ClaimDataC1.midPkg, ClaimDataC1.pkgA, ClaimDataC1.pkgB]
    (some "SPDXRef-DOCUMENT") (some "SPDXRef-DOC2") ClaimDataC1.describesRel
    (by decide) (by decide) (by decide) (by decide) (by decide) (by decide)
    (by decide)

/-- Claim C2: in the merged SPDX output of two anchor-shaped documents, every
output package appears in at least one output relationship, and every output
relationship endpoint is the base root, the base middle, or an output
package id. -/
theorem c2_referential_integrity (syft cachi2 : SpdxCachi2.SpdxSbom)
    (pkgs : List SpdxCachi2.SPkg) (root1 root2 : SpdxCachi2.Elem)
    (out : SpdxCachi2.SpdxSbom)
    (hmp : SpdxCachi2.merge_packages syft.packages cachi2.packages = some pkgs)
    (hr1 : SpdxCachi2.rootOf syft.relationships = some root1)
    (hr2 : SpdxCachi2.rootOf cachi2.relationships = some root2)
    (hshape1 : ∀ r ∈ syft.relationships,
      r.spdxElementId = root1 ∨
      r.spdxElementId = SpdxCachi2.middleOf syft.relationships root1 ∨
      SpdxCachi2.memElem r.spdxElementId (pkgs.map (·.SPDXID)) = true)
    (hshape2 : ∀ r ∈ cachi2.relationships,
      (r.spdxElementId = root2 ∨
        r.spdxElementId = SpdxCachi2.middleOf cachi2.relationships root2 ∨
        SpdxCachi2.memElem r.spdxElementId (pkgs.map (·.SPDXID)) = true) ∧
      (r.relatedSpdxElement = SpdxCachi2.middleOf cachi2.relationships root2 ∨
        SpdxCachi2.memElem r.relatedSpdxElement (pkgs.map (·.SPDXID)) = true))
    (hout : SpdxCachi2.merge_sboms_spdx syft cachi2 = some out) :
    (∀ p ∈ out.packages, ∃ r ∈ out.relationships,
      r.spdxElementId = some p.SPDXID ∨ r.relatedSpdxElement = some p.SPDXID) ∧
    (∀ r ∈ out.relationships,
      (r.spdxElementId = root1 ∨
        r.spdxElementId = SpdxCachi2.middleOf syft.relationships root1 ∨
        ∃ p ∈ out.packages, r.spdxElementId = some p.SPDXID) ∧
      (r.relatedSpdxElement = root1 ∨
        r.relatedSpdxElement = SpdxCachi2.middleOf syft.relationships root1 ∨
        ∃ p ∈ out.packages, r.relatedSpdxElement = some p.SPDXID)) := by
  have hmr := SpdxCachi2.merge_relationships_eq syft.relationships
    cachi2.relationships pkgs root1 root2 hr1 hr2
  have heq := SpdxCachi2.merge_sboms_spdx_eq syft cachi2 pkgs _ hmp hmr
  rw [hout] at heq
  have hdoc := Option.some.inj heq
  subst hdoc
  constructor
  · intro p hp
    have hp' := List.mem_filter.mp hp
    have hep := of_decide_eq_true hp'.2
    obtain ⟨r, hr, hor⟩ := (SpdxCachi2.mem_relationshipEndpoints _ _).mp hep
    exact ⟨r, hr, hor⟩
  · intro r hr
    rcases List.mem_append.mp hr with hA | hB
    · obtain ⟨b, hb, hfb⟩ := List.mem_filterMap.mp hA
      obtain ⟨hbs, hbt⟩ := hshape2 b hb
      obtain ⟨hsrc, htgt⟩ := SpdxCachi2.rewriteRel2_endpoints root1 root2
        (SpdxCachi2.middleOf syft.relationships root1)
        (SpdxCachi2.middleOf cachi2.relationships root2)
        (pkgs.map (·.SPDXID)) b r hbs hbt hfb
      constructor
      · rcases hsrc with h | h | h
        · exact Or.inl h
        · exact Or.inr (Or.inl h)
        · exact Or.inr (Or.inr
            (SpdxCachi2.endpoint_in_pruned pkgs _ r hr _ (Or.inl rfl) h))
      · rcases htgt with h | h | h
        · exact Or.inl h
        · exact Or.inr (Or.inl h)
        · exact Or.inr (Or.inr
            (SpdxCachi2.endpoint_in_pruned pkgs _ r hr _ (Or.inr rfl) h))
    · have hB' := List.mem_filter.mp hB
      have hrt : SpdxCachi2.memElem r.relatedSpdxElement (pkgs.map (·.SPDXID)) =
          true := hB'.2
      constructor
      · rcases hshape1 r hB'.1 with h | h | h
        · exact Or.inl h
        · exact Or.inr (Or.inl h)
        · exact Or.inr (Or.inr
            (SpdxCachi2.endpoint_in_pruned pkgs _ r hr _ (Or.inl rfl) h))
      · exact Or.inr (Or.inr
          (SpdxCachi2.endpoint_in_pruned pkgs _ r hr _ (Or.inr rfl) hrt))

namespace ClaimDataC2

def mergedPkgs : List SpdxCachi2.SPkg :=
  [ClaimDataC1.midPkg, ClaimDataC1.pkgA, ClaimDataC1.pkgB]

def outDoc : SpdxCachi2.SpdxSbom :=
  { packages := mergedPkgs,
    relationships :=
      [{ spdxElementId := some "SPDXRef-mid1", relatedSpdxElement := some "SPDXRef-pkgB",
         relationshipType := "CONTAINS" },
       { spdxElementId := some "SPDXRef-DOCUMENT",
         relatedSpdxElement := some "SPDXRef-mid1", relationshipType := "DESCRIBES" },
       { spdxElementId := some "SPDXRef-mid1", relatedSpdxElement := some "SPDXRef-pkgA",
         relationshipType := "CONTAINS" }],
    creators := ["Tool: syft", "Tool: cachi2"] }

end ClaimDataC2

/-- Claim C2, witness: the referential-integrity invariants hold on the merge
of two well-formed anchor-shaped documents. -/
theorem c2_referential_integrity_witness :
    (∀ p ∈ ClaimDataC2.outDoc.packages, ∃ r ∈ ClaimDataC2.outDoc.relationships,
      r.spdxElementId = some p.SPDXID ∨ r.relatedSpdxElement = some p.SPDXID) ∧
    (∀ r ∈ ClaimDataC2.outDoc.relationships,
      (r.spdxElementId = some "SPDXRef-DOCUMENT" ∨
        r.spdxElementId = SpdxCachi2.middleOf ClaimDataC1.syftDocWithMid.relationships
          (some "SPDXRef-DOCUMENT") ∨
        ∃ p ∈ ClaimDataC2.outDoc.packages, r.spdxElementId = some p.SPDXID) ∧
      (r.relatedSpdxElement = some "SPDXRef-DOCUMENT" ∨
        r.relatedSpdxElement = SpdxCachi2.middleOf
          ClaimDataC1.syftDocWithMid.relationships (some "SPDXRef-DOCUMENT") ∨
        ∃ p ∈ ClaimDataC2.outDoc.packages, r.relatedSpdxElement = some p.SPDXID)) :=
  c2_referential_integrity ClaimDataC1.syftDocWithMid ClaimDataC1.cachiDoc
    ClaimDataC2.mergedPkgs (some "SPDXRef-DOCUMENT") (some "SPDXRef-DOC2")
    ClaimDataC2.outDoc (by decide) (by decide) (by decide) (by decide) (by decide)
    (by decide)

/-- Claim C10: for every non-scratch build, the synthesizer attaches the
`konflux:container:is_base_image` property to a component of its output, the
JSON comment rendered from that property equals the sentinel string compared
by `get_used_parent_image_from_legacy_sbom`, and the lookup finds exactly the
package annotated with that comment. -/
theorem c10_sentinel_agreement (digests : List String)
    (comps : List BaseImages.BComponent) (hne : digests ≠ [])
    (hc : BaseImages.get_base_images_sbom_components digests false = some comps) :
    SbomCore.jsonDumpsNameValue "konflux:container:is_base_image" "true" =
      ParentContent.usedParentSentinel ∧
    (∃ c ∈ comps, ("konflux:container:is_base_image", "true") ∈ c.properties ∧
      ParentContent.usedParentSentinel ∈ BaseImages.spdx_annotation_comments c) ∧
    (∀ (pre : List ParentContent.PAnnot) (id : String),
      (∀ a ∈ pre, a.comment ≠ ParentContent.usedParentSentinel) →
      ParentContent.get_used_parent_image_from_legacy_sbom
        (pre ++ [{ spdxId := id,
                   comment := SbomCore.jsonDumpsNameValue
                     "konflux:container:is_base_image" "true" }]) = some id) := by
  have hdump : SbomCore.jsonDumpsNameValue "konflux:container:is_base_image" "true" =
      ParentContent.usedParentSentinel := by decide
  have hbase : BaseImages.base_image_property (digests.length - 1) digests.length
      false = ("konflux:container:is_base_image", "true") := by
    unfold BaseImages.base_image_property
    rw [if_pos]
    simp
  refine ⟨hdump, ?_, ?_⟩
  · obtain ⟨c, hcm, hpr⟩ := BaseImages.componentsLoop_last_property false digests
      digests.length 0 [] [] comps hne (by simp) (by simp) hc
    rw [hbase] at hpr
    refine ⟨c, hcm, hpr, ?_⟩
    have hmem := List.mem_map_of_mem
      (f := fun pr => SbomCore.jsonDumpsNameValue pr.1 pr.2) hpr
    simpa [BaseImages.spdx_annotation_comments, hdump] using hmem
  · intro pre id hpre
    induction pre with
    | nil =>
      unfold ParentContent.get_used_parent_image_from_legacy_sbom
      simp only [List.nil_append, List.find?]
      rw [show (SbomCore.jsonDumpsNameValue "konflux:container:is_base_image"
          "true" == ParentContent.usedParentSentinel) = true from by decide]
      rfl
    | cons a rest ih =>
      have hrest := ih fun b hb => hpre b (List.mem_cons_of_mem _ hb)
      have ha : (a.comment == ParentContent.usedParentSentinel) = false := by
        simpa using hpre a (List.mem_cons_self _ _)
      unfold ParentContent.get_used_parent_image_from_legacy_sbom at hrest ⊢
      rw [List.cons_append, List.find?_cons_of_neg _ (by simp [ha])]
      exact hrest

namespace ClaimDataC10

def digests : List String :=
  ["quay.io/builder/go:1.21@sha256:aaa",
   "registry.access.redhat.com/ubi8/ubi:latest@sha256:bbb"]

def comps : List BaseImages.BComponent :=
  [{ ctype := "container", name := "quay.io/builder/go",
     purl := "pkg:oci/go@sha256%3Aaaa?repository_url=quay.io/builder/go",
     properties := [("konflux:container:is_builder_image:for_stage", "0")] },
   { ctype := "container", name := "registry.access.redhat.com/ubi8/ubi",
     purl := "pkg:oci/ubi@sha256%3Abbb?repository_url=registry.access.redhat.com/ubi8/ubi",
     properties := [("konflux:container:is_base_image", "true")] }]

end ClaimDataC10

/-- Claim C10, witness: on a concrete two-stage build the synthesizer marks
the final image with the sentinel-rendered property and the legacy lookup
finds the annotated package. -/
theorem c10_sentinel_agreement_witness :
    SbomCore.jsonDumpsNameValue "konflux:container:is_base_image" "true" =
      ParentContent.usedParentSentinel ∧
    (∃ c ∈ ClaimDataC10.comps,
      ("konflux:container:is_base_image", "true") ∈ c.properties ∧
      ParentContent.usedParentSentinel ∈ BaseImages.spdx_annotation_comments c) ∧
    ParentContent.get_used_parent_image_from_legacy_sbom
      ([{ spdxId := "SPDXRef-other", comment := "irrelevant" }] ++
        [{ spdxId := "SPDXRef-grandparent",
           comment := SbomCore.jsonDumpsNameValue "konflux:container:is_base_image"
             "true" }]) = some "SPDXRef-grandparent" := by
  have h := c10_sentinel_agreement ClaimDataC10.digests ClaimDataC10.comps
    (by decide) (by decide)
  exact ⟨h.1, h.2.1,
    h.2.2 [{ spdxId := "SPDXRef-other", comment := "irrelevant" }]
      "SPDXRef-grandparent" (by decide)⟩
